import Mathlib

/-!
Shallow embedding of the Strategy Execution & Position Lifecycle Manager of
the trading bot (orchestrator, strategy manager, order executors, binance
gateway, strategy state persistence, and the atr_stop hysteresis loop),
together with theorems settling the specification claims.

Python floats are modelled as `ℚ`, Python `int` counters as `ℕ`, timestamps
as rational seconds since the epoch (UTC), and fallible code as
`Option`/`Except`.  External collaborators (the Binance client, the JSON
parser, the dynamically imported strategy functions) enter as explicit data:
the per-call responses the code would observe.
-/

namespace Bot

/-! ## JSON values (the result of `json.loads`)

`json.loads` either raises (modelled as `none` at use sites) or produces a
tree of dicts / lists / numbers / strings / booleans / null. -/

inductive Json where
  | null
  | boolV (b : Bool)
  | num (q : ℚ)
  | str (s : String)
  | arr (xs : List Json)
  | obj (fields : List (String × Json))

/-- Python `dict.get(k, default)` over the field list of a JSON object.
Later duplicate keys shadow earlier ones, as in `json.loads`. -/
def objGet (fields : List (String × Json)) (k : String) (deflt : Json) : Json :=
  fields.foldl (fun acc kv => if kv.1 = k then kv.2 else acc) deflt

/-- Digits to a natural number (caller guarantees the characters are digits). -/
def digitsToNat (cs : List Char) : Nat :=
  cs.foldl (fun n c => n * 10 + (c.toNat - 48)) 0

/-- Python `str.upper` (the strings involved are ASCII). -/
def pyUpper (s : String) : String :=
  String.mk (s.data.map Char.toUpper)

/-- Python `str.lower` (the strings involved are ASCII). -/
def pyLower (s : String) : String :=
  String.mk (s.data.map Char.toLower)

/-- Python `str.strip` on the character list. -/
def trimChars (cs : List Char) : List Char :=
  ((cs.dropWhile Char.isWhitespace).reverse.dropWhile Char.isWhitespace).reverse

/-- Python `str.strip` on a string. -/
def pyStrip (s : String) : String :=
  String.mk (trimChars s.data)

/-- `sep.join(parts)`. -/
def joinSep (sep : String) : List String → String
  | [] => ""
  | [x] => x
  | x :: xs => x ++ sep ++ joinSep sep xs

/-- Python `float(s)` on a string: optional sign, then digits with at most one
decimal point (either side of the point may be empty, not both).  Exotic forms
(exponents, `inf`, `nan`) are not modelled; no claim depends on them. -/
def floatOfString (s : String) : Option ℚ :=
  let cs := trimChars s.data
  let signAndRest : ℚ × List Char :=
    match cs with
    | '-' :: rest => (-1, rest)
    | '+' :: rest => (1, rest)
    | _ => (1, cs)
  let sign := signAndRest.1
  let body := signAndRest.2
  let ip := body.takeWhile (fun c => c != '.')
  match body.dropWhile (fun c => c != '.') with
  | [] =>
      if !ip.isEmpty && ip.all Char.isDigit then
        some (sign * (digitsToNat ip : ℚ))
      else none
  | _ :: fp =>
      if (!ip.isEmpty || !fp.isEmpty) && ip.all Char.isDigit && fp.all Char.isDigit then
        some (sign * ((digitsToNat ip : ℚ) + (digitsToNat fp : ℚ) / (10 : ℚ) ^ fp.length))
      else none

/-- Python `float(v)` on a JSON value: numbers and booleans convert, numeric
strings parse, everything else raises (`none`). -/
def pyFloat (v : Json) : Option ℚ :=
  match v with
  | .num q => some q
  | .boolV b => some (if b then 1 else 0)
  | .str s => floatOfString s
  | _ => none

/-! ## Market price extraction

`executor/order_executor.py` `get_current_price` and
`executor/trader_executor.py` `get_current_price_from_data` have identical
bodies: parse the market-data JSON and read
`real_time_data.current_price_usd`, falling back to `40000.0` on any failure
(invalid JSON, non-dict values, missing field, non-convertible value).
The argument is the result of `json.loads` (`none` = the parse raised). -/

def get_current_price (parsed : Option Json) : ℚ :=
  match parsed with
  | none => 40000
  | some d =>
    match d with
    | .obj fields =>
      match objGet fields "real_time_data" (Json.obj []) with
      | .obj rtd => (pyFloat (objGet rtd "current_price_usd" (Json.num 40000))).getD 40000
      | _ => 40000
    | _ => 40000

/-- `trader_executor.get_current_price_from_data`: same body as
`get_current_price`. -/
def get_current_price_from_data (parsed : Option Json) : ℚ :=
  match parsed with
  | none => 40000
  | some d =>
    match d with
    | .obj fields =>
      match objGet fields "real_time_data" (Json.obj []) with
      | .obj rtd => (pyFloat (objGet rtd "current_price_usd" (Json.num 40000))).getD 40000
      | _ => 40000
    | _ => 40000

/-- The market-data JSON lacks a `real_time_data.current_price_usd` field
(or is not a JSON object at all), or the parse failed (`none`). -/
def lacksPrice (parsed : Option Json) : Bool :=
  match parsed with
  | none => true
  | some d =>
    match d with
    | .obj fields =>
      match objGet fields "real_time_data" Json.null with
      | .obj rtd =>
        match objGet rtd "current_price_usd" Json.null with
        | .null => true
        | _ => false
      | _ => true
    | _ => true

/-! ## Data model: positions, decisions, venue responses -/

/-- The persisted Position record (`position_state.json`).  `timestamp` is
seconds since the epoch, UTC. -/
structure Position where
  side : String
  size : ℚ
  entry_price : ℚ
  timestamp : ℚ
  deriving DecidableEq

/-- A strategy parameter value (Python `Any` restricted to the JSON scalars
the code actually passes around). -/
inductive PVal where
  | str (s : String)
  | num (q : ℚ)
  | boolV (b : Bool)
  deriving DecidableEq

/-- Rendering of a parameter value inside a strategy id, standing in for
Python `str(v)` in the f-string `f"{k}-{v}"`.  The claims only require this
to be a function of the value, not a particular spelling. -/
def pvalStr (v : PVal) : String :=
  match v with
  | .str s => s
  | .num q => toString q
  | .boolV b => if b then "True" else "False"

/-- One decision record of a batch, as consumed by the executors
(`dict.get` with the defaults the code uses at each site). -/
structure Decision where
  action : String := "HOLD"
  side : Option String := none
  size : Option ℚ := none
  size_pct : Option ℚ := none
  strategy_name : Option String := none
  params : List (String × PVal) := []
  deriving DecidableEq

/-- A venue order response; only the fields the executors inspect. -/
structure Resp where
  status : String
  deriving DecidableEq

/-- Result that one (already retry-wrapped) `place_order` call delivers to
its caller: `Except.error ()` models the `BinanceAPIException` reraised after
retry exhaustion, `Except.ok none` the `return None` path on an unexpected
error, `Except.ok (some r)` a venue response. -/
abbrev PlaceResult := Except Unit (Option Resp)

/-- An open order as returned by `list_open_orders`. -/
structure OpenOrder where
  side : String
  orderId : Nat
  deriving DecidableEq

/-- Externally visible exchange actions of an executor run. -/
inductive Event where
  | placed (side : String) (qty : ℚ)
  | canceled (orderId : Nat)
  deriving DecidableEq

/-- The slice of the Binance client state the executors read.  A balance of
`none` models `get_asset_balance` raising (handled by returning `0.0`). -/
structure ExecCtx where
  usdtFree : Option ℚ := none
  btcFree : Option ℚ := none
  openOrders : List OpenOrder := []
  deriving DecidableEq

/-- `order_executor._get_asset_free_balance`: the free balance, or `0.0` when
the client call raised. -/
def get_asset_free_balance (bal : Option ℚ) : ℚ :=
  bal.getD 0

/-- `order_executor._cleanup_conflicts` / the inline loop in
`trader_executor`: cancel every open order on the other side. -/
def cleanup_conflicts (openOrders : List OpenOrder) (side : String) : List Event :=
  (openOrders.filter (fun o => decide (o.side ≠ side))).map (fun o => Event.canceled o.orderId)

namespace OrderExec

/-- Result of `order_executor._execute_direct_order`: the returned position
(or `None`), the exchange actions taken, and the `place_order` results not
consumed. -/
structure DirectResult where
  newPos : Option Position
  events : List Event
  rest : List PlaceResult

/-- Lines 105-116 of `order_executor._execute_direct_order`: the side and the
absolute order size resolved from the decision (`size_pct` takes priority;
BUY sizes against the free USDT balance over the price, SELL against the free
BTC balance). -/
def resolveDirectSize (ctx : ExecCtx) (decision : Decision) (current_price : ℚ) :
    String × ℚ :=
  let side := pyUpper (decision.side.getD "")
  let size : ℚ :=
    match decision.size_pct with
    | some pct =>
      if side = "BUY" then
        get_asset_free_balance ctx.usdtFree * pct / current_price
      else
        get_asset_free_balance ctx.btcFree * pct
    | none => decision.size.getD 0
  (side, size)

/-- `order_executor._execute_direct_order` (lines 100-140): resolve the size,
reject invalid side / non-positive size by returning `None` before touching
the exchange, cancel conflicting orders, place the order, and return a new
BUY Position only when the venue reports `FILLED` (a SELL fill returns
`None`).  `now` is `datetime.now(timezone.utc)`. -/
def execute_direct_order (ctx : ExecCtx) (now : ℚ) (decision : Decision)
    (current_price : ℚ) (placeResults : List PlaceResult) :
    Except Unit DirectResult :=
  let ss := resolveDirectSize ctx decision current_price
  let side := ss.1
  let size := ss.2
  if (side ≠ "BUY" ∧ side ≠ "SELL") ∨ size ≤ 0 then
    Except.ok ⟨none, [], placeResults⟩
  else
    let cancels := cleanup_conflicts ctx.openOrders side
    match placeResults with
    | [] => Except.error ()
    | pr :: rest =>
      match pr with
      | Except.error _ => Except.error ()
      | Except.ok resp =>
        let evs := cancels ++ [Event.placed side size]
        match resp with
        | none => Except.ok ⟨none, evs, rest⟩
        | some r =>
          if r.status ≠ "FILLED" then Except.ok ⟨none, evs, rest⟩
          else if side = "BUY" then
            Except.ok ⟨some ⟨"BUY", size, current_price, now⟩, evs, rest⟩
          else
            Except.ok ⟨none, evs, rest⟩

end OrderExec

/-! ## Parameter / action normalization (`executor/normalization.py`) -/

/-- Python `dict.get(k)` over an association list, later entries shadowing
earlier ones (dict insertion semantics). -/
def dictGet {α : Type} (l : List (String × α)) (k : String) : Option α :=
  l.foldl (fun acc kv => if kv.1 = k then some kv.2 else acc) none

/-- Python `float(v)` on a parameter value. -/
def pyFloatP (v : PVal) : Option ℚ :=
  match v with
  | .num q => some q
  | .boolV b => some (if b then 1 else 0)
  | .str s => floatOfString s

/-- The check `value.replace('.', '', 1).isdigit()`: after removing the first
dot, the string is non-empty and all digits. -/
def isNumericStr (s : String) : Bool :=
  let cs := s.toList
  let cs' := cs.takeWhile (fun c => c != '.') ++ (cs.dropWhile (fun c => c != '.')).drop 1
  !cs'.isEmpty && cs'.all Char.isDigit

/-- `normalization.normalize_strategy_params`: lowercase each key, fix the
known typo `ipliplier -> multiplier`, and convert numeric strings to numbers
(Python's int/float distinction only affects rendering, which `pvalStr`
abstracts). -/
def normalize_strategy_params (params : List (String × PVal)) : List (String × PVal) :=
  params.map fun kv =>
    let keyLower := pyLower kv.1
    let correctKey := if keyLower = "ipliplier" then "multiplier" else keyLower
    let value :=
      match kv.2 with
      | .str s => if isNumericStr s then PVal.num ((floatOfString s).getD 0) else .str s
      | v => v
    (correctKey, value)

/-- Python `str.isupper`: at least one cased character and no lowercase cased
character (ASCII letters are the cased characters that occur here). -/
def pyIsUpper (s : String) : Bool :=
  s.toList.any Char.isAlpha && s.toList.all (fun c => !c.isAlpha || c.isUpper)

/-- `normalization.normalize_action`: map the known typo `__strategy` to
`STRATEGY`, otherwise uppercase the action. -/
def normalize_action (action : String) : String :=
  let actionUpper := pyUpper action
  let normalized := if pyLower action = "__strategy" then "STRATEGY" else actionUpper
  if pyIsUpper normalized then normalized else actionUpper

namespace OrderExec

/-- `order_executor._execute_strategy_order` (lines 143-189).  The injected
`STRATEGY_REGISTRY` is modelled as an association list from (lowercased)
strategy name to the outcome of calling its function: `none` models the call
raising (caught, yielding no order), `some sig` its returned signal.  A BUY
signal sizes from `size_pct` (or `size`, default `0.01`) and opens a Position
on a `FILLED` response; every other signal returns `None`. -/
def execute_strategy_order (ctx : ExecCtx) (now : ℚ)
    (registry : List (String × Option String)) (name : String)
    (params : List (String × PVal)) (current_price : ℚ)
    (placeResults : List PlaceResult) : Except Unit DirectResult :=
  let params := normalize_strategy_params params
  match dictGet registry (pyLower name) with
  | none => Except.ok ⟨none, [], placeResults⟩
  | some callOutcome =>
    match callOutcome with
    | none => Except.ok ⟨none, [], placeResults⟩
    | some decision =>
      if decision = "BUY" then
        let sizeE : Except Unit ℚ :=
          match dictGet params "size_pct" with
          | some v =>
            match pyFloatP v with
            | none => Except.error ()
            | some pct => Except.ok (get_asset_free_balance ctx.usdtFree * pct / current_price)
          | none =>
            match dictGet params "size" with
            | some v =>
              match pyFloatP v with
              | none => Except.error ()
              | some q => Except.ok q
            | none => Except.ok (1 / 100)
        match sizeE with
        | .error _ => Except.error ()
        | .ok size =>
          let cancels := cleanup_conflicts ctx.openOrders "BUY"
          match placeResults with
          | [] => Except.error ()
          | pr :: rest =>
            match pr with
            | .error _ => Except.error ()
            | .ok resp =>
              let evs := cancels ++ [Event.placed "BUY" size]
              match resp with
              | none => Except.ok ⟨none, evs, rest⟩
              | some r =>
                if r.status ≠ "FILLED" then Except.ok ⟨none, evs, rest⟩
                else Except.ok ⟨some ⟨"BUY", size, current_price, now⟩, evs, rest⟩
      else Except.ok ⟨none, [], placeResults⟩

end OrderExec

/-- Outcome of a `process_multiple_decisions` run.  `raised = true` models an
exception escaping to the orchestrator (which catches and logs it); `store`
is the content of `position_state.json` afterwards. -/
structure ProcOut where
  raised : Bool
  ret : Option Position
  store : Option Position
  events : List Event
  deriving DecidableEq

namespace OrderExec

/-- Loop body of `order_executor.process_multiple_decisions` (lines 201-226):
HOLD skips the persist step entirely; DIRECT_ORDER / STRATEGY replace
`new_position` with the branch result; unknown actions only log.  After every
non-HOLD decision, `_persist_position` saves `new_position` or deletes the
state file when it is `None`. -/
def processFrom (ctx : ExecCtx) (now : ℚ) (registry : List (String × Option String))
    (price : ℚ) :
    List Decision → Option Position → Option Position → List PlaceResult →
    List Event → ProcOut
  | [], newPos, store, _, evs => ⟨false, newPos, store, evs⟩
  | dec :: rest, newPos, store, prs, evs =>
    if dec.action = "HOLD" then
      processFrom ctx now registry price rest newPos store prs evs
    else
      let r : Except Unit DirectResult :=
        if dec.action = "DIRECT_ORDER" then
          execute_direct_order ctx now dec price prs
        else if dec.action = "STRATEGY" then
          execute_strategy_order ctx now registry (dec.strategy_name.getD "")
            dec.params price prs
        else
          Except.ok ⟨newPos, [], prs⟩
      match r with
      | .error _ => ⟨true, none, store, evs⟩
      | .ok dr =>
        processFrom ctx now registry price rest dr.newPos dr.newPos dr.rest
          (evs ++ dr.events)

/-- `order_executor.process_multiple_decisions` (lines 192-226): compute the
price once from the market-data JSON, start from the passed-in position, and
fold over the batch. -/
def process_multiple_decisions (ctx : ExecCtx) (now : ℚ)
    (registry : List (String × Option String)) (decisions : List Decision)
    (dataJson : Option Json) (current_position : Option Position)
    (store : Option Position) (placeResults : List PlaceResult) : ProcOut :=
  let price := get_current_price dataJson
  processFrom ctx now registry price decisions current_position store placeResults []

end OrderExec

namespace TraderExec

/-- The static `STRATEGY_REGISTRY` of `trader_executor.py` (its keys; the
values are dotted import paths to each strategy's `run_strategy`). -/
def registryNames : List String :=
  ["atr_stop", "bollinger", "ichimoku", "ma_crossover", "macd",
   "range_trading", "rsi", "stochastic"]

/-- Loop body of `trader_executor.process_multiple_decisions` (lines
126-261).  `stratSignals` supplies, per recognized `USE_STRATEGY` decision,
the outcome of the dynamically imported `run_strategy` call (`none` = the
call raised, handled as HOLD).  Only the DIRECT_ORDER and USE_STRATEGY
branches touch `position_state.json`: they save `new_position` or delete the
file when it is `None`.  Note the function starts from `new_position = None`,
discarding any previous cycle's position. -/
def processFrom (ctx : ExecCtx) (now : ℚ) (price : ℚ) :
    List Decision → Option Position → Option Position → List PlaceResult →
    List (Option String) → List Event → ProcOut
  | [], newPos, store, _, _, evs => ⟨false, newPos, store, evs⟩
  | dec :: rest, newPos, store, prs, sigs, evs =>
    if dec.action = "HOLD" then
      processFrom ctx now price rest newPos store prs sigs evs
    else if dec.action = "DIRECT_ORDER" then
      let side := pyUpper (dec.side.getD "HOLD")
      let cancels := cleanup_conflicts ctx.openOrders side
      let evs := evs ++ cancels
      if side = "BUY" then
        let size := dec.size.getD (1 / 100)
        match prs with
        | [] => ⟨true, none, store, evs⟩
        | .error _ :: _ => ⟨true, none, store, evs⟩
        | .ok resp :: prs' =>
          let evs := evs ++ [Event.placed "BUY" size]
          let newPos' := if resp.isSome then some ⟨"BUY", size, price, now⟩ else newPos
          processFrom ctx now price rest newPos' newPos' prs' sigs evs
      else if side = "SELL" then
        let partial_size := dec.size.getD (1 / 100)
        match prs with
        | [] => ⟨true, none, store, evs⟩
        | .error _ :: _ => ⟨true, none, store, evs⟩
        | .ok resp :: prs' =>
          let evs := evs ++ [Event.placed "SELL" partial_size]
          let newPos' :=
            if resp.isSome then
              match newPos with
              | some p =>
                if p.side = "BUY" then
                  let sell_amount := min p.size partial_size
                  let remaining := p.size - sell_amount
                  if remaining ≤ 1 / 100000000 then none
                  else some { p with size := remaining }
                else none
              | none => none
            else newPos
          processFrom ctx now price rest newPos' newPos' prs' sigs evs
      else
        processFrom ctx now price rest newPos newPos prs sigs evs
    else if dec.action = "USE_STRATEGY" then
      let raw_name := dec.strategy_name.getD ""
      let recognized := decide (pyLower (pyStrip raw_name) ∈ registryNames)
      let stratDec : String :=
        if recognized then
          match sigs with
          | [] => "HOLD"
          | sig :: _ => sig.getD "HOLD"
        else "HOLD"
      let sigs' := if recognized then sigs.drop 1 else sigs
      if stratDec = "BUY" then
        match prs with
        | [] => ⟨true, none, store, evs⟩
        | .error _ :: _ => ⟨true, none, store, evs⟩
        | .ok resp :: prs' =>
          let evs := evs ++ [Event.placed "BUY" (1 / 100)]
          let newPos' := if resp.isSome then some ⟨"BUY", 1 / 100, price, now⟩ else newPos
          processFrom ctx now price rest newPos' newPos' prs' sigs' evs
      else if stratDec = "SELL" then
        let sellSize := match newPos with | some p => p.size | none => 1 / 100
        match prs with
        | [] => ⟨true, none, store, evs⟩
        | .error _ :: _ => ⟨true, none, store, evs⟩
        | .ok resp :: prs' =>
          let evs := evs ++ [Event.placed "SELL" sellSize]
          let newPos' := if resp.isSome then none else newPos
          processFrom ctx now price rest newPos' newPos' prs' sigs' evs
      else
        processFrom ctx now price rest newPos newPos prs sigs' evs
    else
      processFrom ctx now price rest newPos store prs sigs evs

/-- `trader_executor.process_multiple_decisions` (lines 110-261): discards
`current_pos` (`new_position = None`), then folds over the batch.  `store` is
the `position_state.json` content the run starts from. -/
def process_multiple_decisions (ctx : ExecCtx) (now : ℚ) (decisions : List Decision)
    (dataJson : Option Json) (current_pos : Option Position)
    (store : Option Position) (placeResults : List PlaceResult)
    (stratSignals : List (Option String)) : ProcOut :=
  let _ := current_pos
  let price := get_current_price_from_data dataJson
  processFrom ctx now price decisions none store placeResults stratSignals []

end TraderExec

/-! ## Binance gateway retry (`executor/binance_api.py`) -/

namespace Binance

/-- What one `client.create_order` attempt inside `place_order` does:
returns a response, raises `BinanceAPIException` (transient; reraised for
tenacity to retry), or raises something else (caught; `place_order` returns
`None`). -/
inductive AttemptOutcome where
  | ok (r : Resp)
  | transientErr
  | unexpected
  deriving DecidableEq

/-- The tenacity policy on `place_order`: `stop_after_attempt(2)`. -/
def place_order_attempt_cap : Nat := 2

/-- Semantics of `@retry(reraise=True, stop=stop_after_attempt(cap))` around
the `place_order` body, given the outcome each attempt would have: a response
returns, an unexpected error returns `None`, a transient error is retried
while attempts remain and reraised when the cap is exhausted (also when no
further outcome is modelled). -/
def retryCall : Nat → List AttemptOutcome → Except Unit (Option Resp)
  | 0, _ => Except.error ()
  | _ + 1, [] => Except.error ()
  | n + 1, o :: rest =>
    match o with
    | .ok r => Except.ok (some r)
    | .unexpected => Except.ok none
    | .transientErr => if n = 0 then Except.error () else retryCall n rest

/-- Number of attempts the retry loop actually performs. -/
def attemptsUsed : Nat → List AttemptOutcome → Nat
  | 0, _ => 0
  | _ + 1, [] => 0
  | n + 1, o :: rest =>
    match o with
    | .transientErr => if n = 0 then 1 else 1 + attemptsUsed n rest
    | _ => 1

/-- Lot-size quantization inside `place_order`: `(q // step) * step` with
`Decimal` floor division (quantities are positive), or the raw quantity when
the symbol has no LOT_SIZE filter. -/
def sentQuantity (lotStep : Option ℚ) (qty : ℚ) : ℚ :=
  match lotStep with
  | none => qty
  | some step => (⌊qty / step⌋ : ℚ) * step

/-- `binance_api.place_order`: the retry-wrapped submission, delivering to
executors the `PlaceResult` they consume. -/
def place_order (outcomes : List AttemptOutcome) : PlaceResult :=
  retryCall place_order_attempt_cap outcomes

end Binance

/-! ## Strategy manager (`executor/strategy_manager.py`) -/

/-- Stable insertion of a parameter pair into a key-sorted list (equal keys
keep their relative order, as Python's stable sort does; parameter dicts have
unique keys anyway). -/
def insertByKey (kv : String × PVal) : List (String × PVal) → List (String × PVal)
  | [] => [kv]
  | x :: xs => if kv.1 < x.1 then kv :: x :: xs else x :: insertByKey kv xs

/-- `sorted(params.items(), key=lambda kv: kv[0])`. -/
def sortByKey (l : List (String × PVal)) : List (String × PVal) :=
  l.foldr insertByKey []

/-- `strategy_manager.make_strategy_id`: `f"{name}|{param_str}"` over the
key-sorted parameters. -/
def make_strategy_id (name : String) (params : List (String × PVal)) : String :=
  name ++ "|" ++
    joinSep "_" ((sortByKey params).map fun kv => kv.1 ++ "-" ++ pvalStr kv.2)

/-- The strategy manager's shared state: the keys of `active_strategies`
(insertion-ordered; each maps to a live `StrategyRunner` thread) and the
manager-level `threading.Lock`.  The lock is NOT reentrant: acquiring it
while it is already held by the sole coordinator thread blocks forever, so an
execution reaching such an acquire has no terminating continuation — modelled
by `Option` with `none` for that stuck execution. -/
structure Mgr where
  active : List String
  lockHeld : Bool
  deriving DecidableEq

/-- Acquire `self.lock` (entry of a `with self.lock:` block). -/
def Mgr.acquire (m : Mgr) : Option Mgr :=
  if m.lockHeld then none else some { m with lockHeld := true }

/-- `StrategyManager.start_strategy`: under the lock, start a runner for the
identity unless one is already active. -/
def start_strategy (m : Mgr) (name : String) (params : List (String × PVal)) :
    Option Mgr :=
  m.acquire.map fun m1 =>
    let sid := make_strategy_id name params
    if sid ∈ m1.active then { m1 with lockHeld := false }
    else { active := m1.active ++ [sid], lockHeld := false }

/-- `StrategyManager.stop_strategy`: under the lock, signal the runner, join
it with a 5 s timeout, and remove it from the map. -/
def stop_strategy (m : Mgr) (sid : String) : Option Mgr :=
  m.acquire.map fun m1 =>
    { active := m1.active.erase sid, lockHeld := false }

/-- `StrategyManager.update_strategies` (lines 104-111): while HOLDING the
manager lock, call `stop_strategy` — which tries to acquire the same
non-reentrant lock — on every active id absent from `new_ids`. -/
def update_strategies (m : Mgr) (newIds : List String) : Option Mgr :=
  m.acquire.bind fun m1 =>
    let toStop := m1.active.filter fun sid => decide (sid ∉ newIds)
    (toStop.foldlM stop_strategy m1).map fun m2 => { m2 with lockHeld := false }

/-- `StrategyManager.stop_all`: under the (single) lock, stop and join every
runner and clear the map. -/
def stop_all (m : Mgr) : Option Mgr :=
  m.acquire.map fun m1 => { m1 with active := [], lockHeld := false }

/-- The manager states reachable from the fresh manager through completed
public operations. -/
inductive Reachable : Mgr → Prop
  | init : Reachable ⟨[], false⟩
  | start {m m' : Mgr} {name : String} {params : List (String × PVal)} :
      Reachable m → start_strategy m name params = some m' → Reachable m'
  | stop {m m' : Mgr} {sid : String} :
      Reachable m → stop_strategy m sid = some m' → Reachable m'
  | update {m m' : Mgr} {newIds : List String} :
      Reachable m → update_strategies m newIds = some m' → Reachable m'
  | stopAll {m m' : Mgr} :
      Reachable m → stop_all m = some m' → Reachable m'

/-! ## Orchestrator cycle (`orchestrator.py`) -/

namespace Orch

/-- Lines 96-105 of `orchestrator.main_loop`: load the saved position and
invalidate it when `(now - timestamp).total_seconds() / 3600 > 4`, deleting
`position_state.json`.  The returned value is both the in-memory
`current_pos` and the file content (the code clears both together). -/
def invalidate_old_position (now : ℚ) (pos : Option Position) : Option Position :=
  match pos with
  | none => none
  | some p =>
    let delta_hrs := (now - p.timestamp) / 3600
    if delta_hrs > 4 then none else some p

/-- The strategy id computed inline at line 184 of `orchestrator.py` from
`sorted(sparams.items())`: Python sorts the pairs lexicographically, which on
a dict's (unique) keys is exactly key order. -/
def orchSid (name : String) (params : List (String × PVal)) : String :=
  name ++ "|" ++
    joinSep "_" ((sortByKey params).map fun kv => kv.1 ++ "-" ++ pvalStr kv.2)

/-- Accumulator of the decision-partition loop (lines 170-194):
the manager, the `seen_strategy_ids` set, `new_strategy_ids`, and
`direct_orders`. -/
structure PartState where
  mgr : Mgr
  seen : List String
  newIds : List String
  direct : List Decision

/-- One iteration of the partition loop: normalize the action; STRATEGY
decisions are deduplicated by id and start a worker; DIRECT_ORDER / HOLD /
CLOSE_POSITION / CANCEL_ORDER go to `direct_orders`; anything else is logged
and ignored. -/
def partitionStep (st : PartState) (dec : Decision) : Option PartState :=
  let a := normalize_action dec.action
  let dec1 := { dec with action := a }
  if a = "STRATEGY" then
    let sname := dec.strategy_name.getD ""
    let sid := orchSid sname dec.params
    if sid ∈ st.seen then some st
    else
      (start_strategy st.mgr sname dec.params).map fun m' =>
        { mgr := m', seen := st.seen ++ [sid], newIds := st.newIds ++ [sid],
          direct := st.direct }
  else if a = "DIRECT_ORDER" ∨ a = "HOLD" ∨ a = "CLOSE_POSITION" ∨ a = "CANCEL_ORDER" then
    some { st with direct := st.direct ++ [dec1] }
  else
    some st

/-- The whole partition loop over a decision batch. -/
def partitionDecisions (decisions : List Decision) (m : Mgr) : Option PartState :=
  decisions.foldlM partitionStep ⟨m, [], [], []⟩

end Orch

/-! ## Strategy state persistence

`atr_stop.save_state` opens the state file with mode `"w"` (truncating it in
place) and dumps the JSON into it; `ma_crossover.save_state` dumps to a
`.tmp` file and commits with `os.replace` (an atomic rename). -/

namespace StateStore

/-- The persisted atr_stop hysteresis record. -/
structure AtrStateRec where
  in_uptrend : Bool
  final_upper : Option ℚ
  final_lower : Option ℚ
  below_count : Nat
  above_count : Nat
  lock_counter : Nat
  deriving DecidableEq

/-- The default state `atr_stop.load_state` falls back to. -/
def defaultAtrState : AtrStateRec :=
  ⟨true, none, none, 0, 0, 0⟩

/-- The persisted ma_crossover record. -/
structure MaStateRec where
  last_signal : String
  deriving DecidableEq

/-- Default ma_crossover state on a missing or corrupt file. -/
def defaultMaState : MaStateRec :=
  ⟨"HOLD"⟩

/-- Content of a state file: absent, a truncated/partial JSON dump, or a
fully written record. -/
inductive FileContent (σ : Type) where
  | absent
  | halfWritten
  | committed (s : σ)
  deriving DecidableEq

/-- `atr_stop.load_state`: `json.load` of a complete file yields the record;
a missing or partial file raises and the default is returned. -/
def atrLoadState : FileContent AtrStateRec → AtrStateRec
  | .committed s => s
  | _ => defaultAtrState

/-- `ma_crossover.load_state`: same recovery discipline. -/
def maLoadState : FileContent MaStateRec → MaStateRec
  | .committed s => s
  | _ => defaultMaState

/-- File contents observable if the process crashes during
`atr_stop.save_state`: before the call, after the truncating
`open(..., "w")` but before `json.dump` completes, and after the dump. -/
def atrSaveCrashPoints (prior : FileContent AtrStateRec) (s : AtrStateRec) :
    List (FileContent AtrStateRec) :=
  [prior, .halfWritten, .committed s]

/-- File contents observable if the process crashes during
`ma_crossover.save_state`: the dump goes to the `.tmp` file (main file
untouched), and `os.replace` commits atomically. -/
def maSaveCrashPoints (prior : FileContent MaStateRec) (s : MaStateRec) :
    List (FileContent MaStateRec) :=
  [prior, prior, .committed s]

end StateStore

/-! ## The atr_stop strategy (`executor/strategies/atr_stop/atr_stop.py`) -/

namespace AtrStop

open StateStore (AtrStateRec)

/-- The parameters of `run_strategy`, with its documented defaults. -/
structure AtrParams where
  period : Nat := 14
  multiplier : ℚ := 2
  consecutive_candles : Nat := 2
  atr_min_threshold : ℚ := 0
  lock_candles : Nat := 2
  gap_threshold : ℚ := 3 / 100
  use_leading_line : Bool := false
  deriving DecidableEq

/-- One OHLC candle of `historical_data.historical_prices` (already sorted by
date, as the code sorts it). -/
structure Candle where
  high : ℚ
  low : ℚ
  close : ℚ
  deriving DecidableEq

/-- A dataframe row as it enters the loop at line 131: the candle, the
shifted previous close, the EMA-smoothed ATR, and the basic bands. -/
structure Row where
  high : ℚ
  low : ℚ
  close : ℚ
  prev_close : Option ℚ
  atr : ℚ
  basic_upper : ℚ
  basic_lower : ℚ
  deriving DecidableEq

/-- `true_range`: `max(high - low, |high - prev_close|, |low - prev_close|)`;
with no previous close the NaN columns are skipped and `high - low` remains. -/
def trueRangeOf (prevClose : Option ℚ) (c : Candle) : ℚ :=
  match prevClose with
  | none => c.high - c.low
  | some pc => max (c.high - c.low) (max |c.high - pc| |c.low - pc|)

/-- Lines 95-114: compute `prev_close`, `true_range`, the ATR as
`ewm(span=period, adjust=False).mean()` (so `atr_0 = tr_0` and
`atr_i = α·tr_i + (1-α)·atr_{i-1}` with `α = 2/(period+1)`), and the basic
bands, optionally replaced by the leading line for the persisted trend. -/
def mkRowsAux (p : AtrParams) (trend : Bool) :
    Option ℚ → Option ℚ → List Candle → List Row
  | _, _, [] => []
  | prevClose, prevAtr, c :: cs =>
    let tr := trueRangeOf prevClose c
    let alpha : ℚ := 2 / ((p.period : ℚ) + 1)
    let atr := match prevAtr with
      | none => tr
      | some a => alpha * tr + (1 - alpha) * a
    let bu0 := (c.high + c.low) / 2 + p.multiplier * atr
    let bl0 := (c.high + c.low) / 2 - p.multiplier * atr
    let bu := if p.use_leading_line ∧ ¬trend then c.high + p.multiplier * atr else bu0
    let bl := if p.use_leading_line ∧ trend then c.low - p.multiplier * atr else bl0
    ⟨c.high, c.low, c.close, prevClose, atr, bu, bl⟩ ::
      mkRowsAux p trend (some c.close) (some atr) cs

/-- All derived rows of a candle series. -/
def mkRows (p : AtrParams) (trend : Bool) (candles : List Candle) : List Row :=
  mkRowsAux p trend none none candles

/-- The per-row tracking state of the loop (the `in_uptrend`, `final_upper`,
`final_lower`, `below_count`, `above_count` columns of one row). -/
structure RowState where
  in_uptrend : Bool
  final_upper : ℚ
  final_lower : ℚ
  below_count : Nat
  above_count : Nat
  deriving DecidableEq

/-- Lines 123-128: the state of row 0, seeded from the persisted record
(bands default to the basic bands). -/
def initRowState (st : AtrStateRec) (r : Row) : RowState :=
  { in_uptrend := st.in_uptrend,
    final_upper := st.final_upper.getD r.basic_upper,
    final_lower := st.final_lower.getD r.basic_lower,
    below_count := st.below_count,
    above_count := st.above_count }

/-- Lines 141-146: the candle shows a gap above `gap_threshold` relative to
the previous close, so flip logic is skipped for it. -/
def gapExcluded (p : AtrParams) (r : Row) : Bool :=
  match r.prev_close with
  | none => false
  | some pc =>
    if pc ≠ 0 then
      decide ((r.high - pc) / pc > p.gap_threshold) ||
        decide ((pc - r.low) / pc > p.gap_threshold)
    else false

/-- The band-update of lines 153-172 applied to the previous row's state:
the smoothed `final_lower` an up-trend candle is compared against. -/
def smoothedLower (s : RowState) (r : Row) : ℚ :=
  if r.basic_lower < s.final_lower then (s.final_lower + r.basic_lower) / 2
  else r.basic_lower

/-- Counterpart of `smoothedLower` for a down-trend candle. -/
def smoothedUpper (s : RowState) (r : Row) : ℚ :=
  if r.basic_upper > s.final_upper then (s.final_upper + r.basic_upper) / 2
  else r.basic_upper

/-- The loop body, lines 131-191: one candle applied to (previous row state,
`lock_counter`).  Gap candles and lock-period candles keep the previous
trend and counters (bands are set to the basic bands, as lines 135-136 do);
otherwise bands are smoothed, the consecutive-candle counters updated, and —
when the ATR threshold passes — a flip is taken once the counter reaches
`consecutive_candles`, starting a lock period of `lock_candles`. -/
def stepAtr (p : AtrParams) (sl : RowState × Nat) (r : Row) : RowState × Nat :=
  let s := sl.1
  let lock := sl.2
  let base : RowState :=
    { in_uptrend := s.in_uptrend, final_upper := r.basic_upper,
      final_lower := r.basic_lower, below_count := s.below_count,
      above_count := s.above_count }
  if gapExcluded p r then (base, lock)
  else if lock > 0 then (base, lock - 1)
  else
    let st1 : RowState :=
      if s.in_uptrend then
        let fl := smoothedLower s r
        { in_uptrend := s.in_uptrend, final_upper := r.basic_upper,
          final_lower := fl,
          below_count := if r.close < fl then s.below_count + 1 else 0,
          above_count := 0 }
      else
        let fu := smoothedUpper s r
        { in_uptrend := s.in_uptrend, final_upper := fu,
          final_lower := r.basic_lower, below_count := 0,
          above_count := if r.close > fu then s.above_count + 1 else 0 }
    if r.atr < p.atr_min_threshold then (st1, lock)
    else if s.in_uptrend then
      if st1.below_count ≥ p.consecutive_candles then
        ({ in_uptrend := false,
           final_upper := (s.final_upper + r.basic_upper) / 2,
           final_lower := st1.final_lower, below_count := 0,
           above_count := st1.above_count }, p.lock_candles)
      else (st1, lock)
    else
      if st1.above_count ≥ p.consecutive_candles then
        ({ in_uptrend := true, final_upper := st1.final_upper,
           final_lower := (s.final_lower + r.basic_lower) / 2,
           below_count := st1.below_count, above_count := 0 }, p.lock_candles)
      else (st1, lock)

/-- The loop over the rows after row 0. -/
def runLoop (p : AtrParams) (init : RowState × Nat) (rows : List Row) :
    RowState × Nat :=
  rows.foldl (stepAtr p) init

/-- The loop keeping the states of the last two rows (the signal at lines
205-215 compares them). -/
def runRows (p : AtrParams) :
    RowState × Nat → RowState × Nat → List Row → (RowState × Nat) × (RowState × Nat)
  | prev, cur, [] => (prev, cur)
  | _, cur, r :: rs => runRows p cur (stepAtr p cur r) rs

/-- `atr_stop.run_strategy`: derive the rows, run the loop from the persisted
state, persist the final row's state with the final `lock_counter`, and emit
BUY/SELL exactly on a trend change between the last two rows.  Returns the
signal and the saved state (unchanged when the candle list is empty, which
returns before saving). -/
def run_strategy (p : AtrParams) (st : AtrStateRec) (candles : List Candle) :
    String × AtrStateRec :=
  match mkRows p st.in_uptrend candles with
  | [] => ("HOLD", st)
  | r0 :: rs =>
    let s0 : RowState × Nat := (initRowState st r0, st.lock_counter)
    let pc := runRows p s0 s0 rs
    let fin := pc.2
    let saved : AtrStateRec :=
      { in_uptrend := fin.1.in_uptrend, final_upper := some fin.1.final_upper,
        final_lower := some fin.1.final_lower, below_count := fin.1.below_count,
        above_count := fin.1.above_count, lock_counter := fin.2 }
    let signal :=
      if rs.isEmpty then "HOLD"
      else if ¬pc.1.1.in_uptrend ∧ fin.1.in_uptrend then "BUY"
      else if pc.1.1.in_uptrend ∧ ¬fin.1.in_uptrend then "SELL"
      else "HOLD"
    (signal, saved)

end AtrStop

/-! ## Theorems settling the claims -/

/-- C2 counterexample: a Position whose age is exactly 4h00m00s (timestamp 0,
now = 14400 s, so `delta_hrs = 4`) is NOT invalidated at the start of the
cycle — the claim says it must be treated as expired. -/
theorem c2_ttl_boundary_counterexample :
    (14400 - (0 : ℚ)) / 3600 = 4 ∧
    Orch.invalidate_old_position 14400 (some ⟨"BUY", 1, 100, 0⟩) =
      some ⟨"BUY", 1, 100, 0⟩ := by
  constructor
  · norm_num
  · norm_num [Orch.invalidate_old_position]

/-- C2 (amended): at the start of a cycle a persisted Position is purged iff
it is STRICTLY older than 4 hours; a Position exactly at the boundary (age
`≤ 4` hours, including exactly 4h00m00s) is retained. -/
theorem c2_ttl_purge_strictly_older :
    ∀ (p : Position) (now : ℚ),
      (Orch.invalidate_old_position now (some p) = none ↔
        (now - p.timestamp) / 3600 > 4) ∧
      (Orch.invalidate_old_position now (some p) = some p ↔
        ¬((now - p.timestamp) / 3600 > 4)) := by
  intro p now
  unfold Orch.invalidate_old_position
  by_cases h : (now - p.timestamp) / 3600 > 4 <;> simp [h]

/-- C4: `_execute_direct_order` resolves a `size_pct` decision to
`usdt_balance * pct / price` for BUY and `btc_balance * pct` for SELL, and
the concrete Scenario-A batch (wallet USDT 1000, `size_pct` 0.3, price
50000) is submitted with size exactly 0.006 BTC before lot quantization. -/
theorem c4_size_pct_resolution :
    (∀ (u b pct price : ℚ),
      OrderExec.resolveDirectSize ⟨some u, some b, []⟩
          { action := "DIRECT_ORDER", side := some "BUY", size_pct := some pct }
          price =
        ("BUY", u * pct / price) ∧
      OrderExec.resolveDirectSize ⟨some u, some b, []⟩
          { action := "DIRECT_ORDER", side := some "SELL", size_pct := some pct }
          price =
        ("SELL", b * pct)) ∧
    OrderExec.execute_direct_order ⟨some 1000, some 0, []⟩ 0
        { action := "DIRECT_ORDER", side := some "BUY", size_pct := some (3/10) }
        50000 [Except.ok (some ⟨"FILLED"⟩)] =
      Except.ok ⟨some ⟨"BUY", 6 / 1000, 50000, 0⟩,
        [Event.placed "BUY" (6 / 1000)], []⟩ := by
  have hB : pyUpper "BUY" = "BUY" := by decide
  have hS : pyUpper "SELL" = "SELL" := by decide
  refine ⟨fun u b pct price => ?_, ?_⟩
  · constructor
    · simp [OrderExec.resolveDirectSize, get_asset_free_balance, hB]
    · simp [OrderExec.resolveDirectSize, get_asset_free_balance, hS]
  · simp only [OrderExec.execute_direct_order, OrderExec.resolveDirectSize,
      cleanup_conflicts, get_asset_free_balance, hB, Option.getD]
    norm_num

/-- C5 counterexample: a DIRECT_ORDER with `size_pct = 1.5` (outside [0,1])
is NOT downgraded to HOLD: the order IS submitted (for 0.03 BTC) and on a
FILLED response the Position Store is overwritten — the claim says no order
is submitted and the store is untouched. -/
theorem c5_out_of_range_pct_counterexample :
    OrderExec.execute_direct_order ⟨some 1000, some 0, []⟩ 0
        { action := "DIRECT_ORDER", side := some "BUY", size_pct := some (3/2) }
        50000 [Except.ok (some ⟨"FILLED"⟩)] =
      Except.ok ⟨some ⟨"BUY", 3 / 100, 50000, 0⟩,
        [Event.placed "BUY" (3 / 100)], []⟩ := by
  have hB : pyUpper "BUY" = "BUY" := by decide
  simp only [OrderExec.execute_direct_order, OrderExec.resolveDirectSize,
    cleanup_conflicts, get_asset_free_balance, hB, Option.getD]
  norm_num

/-- C5 (amended): no `[0,1]` range validation is performed on `size_pct`.
A BUY whose `size_pct` exceeds 1 resolves to `usdt * pct / price` like any
other percentage and the order is submitted (overwriting the Position on a
fill); only a `size_pct` resolving to a non-positive size is skipped, with
no order submitted and the decision returning `None`. -/
theorem c5_no_pct_range_check :
    ∀ (u price pct : ℚ), 0 < u → 0 < price →
      (1 < pct →
        OrderExec.execute_direct_order ⟨some u, some 0, []⟩ 0
            { action := "DIRECT_ORDER", side := some "BUY", size_pct := some pct }
            price [Except.ok (some ⟨"FILLED"⟩)] =
          Except.ok ⟨some ⟨"BUY", u * pct / price, price, 0⟩,
            [Event.placed "BUY" (u * pct / price)], []⟩) ∧
      (pct ≤ 0 →
        OrderExec.execute_direct_order ⟨some u, some 0, []⟩ 0
            { action := "DIRECT_ORDER", side := some "BUY", size_pct := some pct }
            price [Except.ok (some ⟨"FILLED"⟩)] =
          Except.ok ⟨none, [], [Except.ok (some ⟨"FILLED"⟩)]⟩) := by
  intro u price pct hu hp
  have hB : pyUpper "BUY" = "BUY" := by decide
  constructor
  · intro hpct
    have hpos : 0 < u * pct / price := div_pos (mul_pos hu (zero_lt_one.trans hpct)) hp
    simp only [OrderExec.execute_direct_order, OrderExec.resolveDirectSize,
      cleanup_conflicts, get_asset_free_balance, hB, Option.getD, if_true]
    rw [if_neg]
    · simp
    · simp [not_le.mpr hpos]
  · intro hpct
    have hnp : u * pct / price ≤ 0 :=
      div_nonpos_iff.mpr (Or.inr ⟨mul_nonpos_iff.mpr (Or.inl ⟨hu.le, hpct⟩), hp.le⟩)
    simp only [OrderExec.execute_direct_order, OrderExec.resolveDirectSize,
      cleanup_conflicts, get_asset_free_balance, hB, Option.getD, if_true]
    rw [if_pos (Or.inr hnp)]

/-- Witness for C5 (amended) at `u = 1000`, `price = 50000`, `pct = 2` and
`pct = -1`. -/
theorem c5_no_pct_range_check_witness :
    OrderExec.execute_direct_order ⟨some 1000, some 0, []⟩ 0
        { action := "DIRECT_ORDER", side := some "BUY", size_pct := some 2 }
        50000 [Except.ok (some ⟨"FILLED"⟩)] =
      Except.ok ⟨some ⟨"BUY", 1000 * 2 / 50000, 50000, 0⟩,
        [Event.placed "BUY" (1000 * 2 / 50000)], []⟩ ∧
    OrderExec.execute_direct_order ⟨some 1000, some 0, []⟩ 0
        { action := "DIRECT_ORDER", side := some "BUY", size_pct := some (-1) }
        50000 [Except.ok (some ⟨"FILLED"⟩)] =
      Except.ok ⟨none, [], [Except.ok (some ⟨"FILLED"⟩)]⟩ :=
  ⟨(c5_no_pct_range_check 1000 50000 2 (by simp) (by simp)).1 one_lt_two,
   (c5_no_pct_range_check 1000 50000 (-1) (by simp) (by simp)).2
     (neg_nonpos.mpr zero_le_one)⟩

/-- C1: evaluating `trader_executor.process_multiple_decisions` at the
failing input — a persisted BUY Position of size 1 and a single DIRECT_ORDER
BUY whose `place_order` returns `None` (not filled) — shows the run ends
with `position_state.json` DELETED (`store = none`), not retained: the
non-filled order mutates the Position Store, contradicting the claim (and
the code's own "order failed => no changes" log message). -/
theorem c1_unfilled_order_deletes_position :
    TraderExec.process_multiple_decisions ⟨some 1000, some 1, []⟩ 100
        [{ action := "DIRECT_ORDER", side := some "BUY", size := some (1/100) }]
        none (some ⟨"BUY", 1, 100, 0⟩) (some ⟨"BUY", 1, 100, 0⟩)
        [Except.ok none] [] =
      ⟨false, none, none, [Event.placed "BUY" (1/100)]⟩ := by
  have hB : pyUpper "BUY" = "BUY" := by decide
  simp only [TraderExec.process_multiple_decisions, TraderExec.processFrom,
    cleanup_conflicts, get_current_price_from_data, hB]
  simp [hB]

/-- A successful `start_strategy` either leaves the active map unchanged (the
identity was already running) or appends the one new identity, then absent. -/
theorem start_strategy_active_eq {m m' : Mgr} {n : String} {p : List (String × PVal)}
    (h : start_strategy m n p = some m') :
    m'.active = m.active ∨
      (m'.active = m.active ++ [make_strategy_id n p] ∧
        make_strategy_id n p ∉ m.active) := by
  unfold start_strategy Mgr.acquire at h
  by_cases hl : m.lockHeld
  · simp [hl] at h
  · simp [hl] at h
    by_cases hin : make_strategy_id n p ∈ m.active
    · left
      simp [hin] at h
      rw [← h]
    · right
      simp [hin] at h
      exact ⟨by rw [← h], hin⟩

/-- A successful `stop_strategy` erases exactly the given identity. -/
theorem stop_strategy_active_eq {m m' : Mgr} {sid : String}
    (h : stop_strategy m sid = some m') :
    m'.active = m.active.erase sid := by
  unfold stop_strategy Mgr.acquire at h
  by_cases hl : m.lockHeld
  · simp [hl] at h
  · simp [hl] at h
    rw [← h]

/-- The only completing executions of `update_strategies` are those with
nothing to stop, and they leave the active map unchanged. -/
theorem update_strategies_active_eq {m m' : Mgr} {ids : List String}
    (h : update_strategies m ids = some m') :
    m'.active = m.active := by
  unfold update_strategies Mgr.acquire at h
  by_cases hl : m.lockHeld
  · simp [hl] at h
  · simp [hl] at h
    cases hts : m.active.filter (fun sid => !decide (sid ∈ ids)) with
    | nil =>
      rw [hts] at h
      simp only [List.foldlM_nil, Option.pure_def, Option.some.injEq] at h
      obtain ⟨a, ha1, ha2⟩ := h
      rw [← ha2, ← ha1]
    | cons a as =>
      rw [hts] at h
      simp [List.foldlM_cons, stop_strategy, Mgr.acquire] at h

/-- A completed `stop_all` clears the active map. -/
theorem stop_all_active_eq {m m' : Mgr} (h : stop_all m = some m') :
    m'.active = [] := by
  unfold stop_all Mgr.acquire at h
  by_cases hl : m.lockHeld
  · simp [hl] at h
  · simp [hl] at h
    rw [← h]

/-- Every reachable manager state has a duplicate-free active map. -/
theorem reachable_active_nodup : ∀ {m : Mgr}, Reachable m → m.active.Nodup := by
  intro m h
  induction h with
  | init => simp
  | start hm heq ih =>
    rcases start_strategy_active_eq heq with h1 | ⟨h1, h2⟩
    · rw [h1]; exact ih
    · rw [h1]
      exact ih.append (List.nodup_singleton _)
        (by simpa [List.disjoint_singleton] using h2)
  | stop hm heq ih =>
    rw [stop_strategy_active_eq heq]
    exact ih.erase _
  | update hm heq ih =>
    rw [update_strategies_active_eq heq]
    exact ih
  | stopAll hm heq ih =>
    rw [stop_all_active_eq heq]
    simp

/-- C9: in every reachable manager state the active map holds at most one
live worker per StrategyIdentity (its key list is duplicate-free), and a
single batch containing two STRATEGY decisions with identical name and
parameters results in exactly one running worker. -/
theorem c9_at_most_one_worker_per_identity :
    (∀ m : Mgr, Reachable m → m.active.Nodup) ∧
    (Orch.partitionDecisions
        [{ action := "STRATEGY", strategy_name := some "rsi",
           params := [("period", PVal.str "14")] },
         { action := "STRATEGY", strategy_name := some "rsi",
           params := [("period", PVal.str "14")] }]
        ⟨[], false⟩).map (fun st => st.mgr.active.length) = some 1 :=
  ⟨fun _ h => reachable_active_nodup h, by decide⟩

/-- Witness for C9 at the state reached by starting `rsi` with
`period = "14"` from the fresh manager. -/
theorem c9_at_most_one_worker_per_identity_witness :
    (Mgr.mk ["rsi|period-14"] false).active.Nodup :=
  c9_at_most_one_worker_per_identity.1 ⟨["rsi|period-14"], false⟩
    (@Reachable.start ⟨[], false⟩ ⟨["rsi|period-14"], false⟩ "rsi"
      [("period", PVal.str "14")] Reachable.init (by decide))

/-- Folding the shadowing lookup from an optional accumulator agrees with
folding it from the supplied default. -/
theorem foldl_shadow_getD (k : String) (fields : List (String × Json)) :
    ∀ (init : Option Json) (d : Json),
      (fields.foldl (fun acc kv => if kv.1 = k then some kv.2 else acc) init).getD d =
        fields.foldl (fun acc kv => if kv.1 = k then kv.2 else acc) (init.getD d) := by
  induction fields with
  | nil => intro init d; rfl
  | cons kv fs ih =>
    intro init d
    simp only [List.foldl_cons]
    by_cases h : kv.1 = k
    · simp [h, ih]
    · simp [h, ih]

/-- `dict.get(k, d)` is the shadowing lookup with the default applied last. -/
theorem objGet_eq_dictGet (fields : List (String × Json)) (k : String) (d : Json) :
    objGet fields k d = (dictGet fields k).getD d := by
  unfold objGet dictGet
  exact (foldl_shadow_getD k fields none d).symm

/-- C10: price extraction is total with the hard-coded fallback: whenever the
market-data string is not valid JSON (`none`) or lacks the
`real_time_data.current_price_usd` field, both `get_current_price` and
`get_current_price_from_data` return exactly `40000.0`, and a direct BUY
executed at that price is sized against 40000 and records `entry_price`
40000 in the Position it creates. -/
theorem c10_price_fallback_40000 :
    ∀ (j : Option Json), lacksPrice j = true →
      get_current_price j = 40000 ∧ get_current_price_from_data j = 40000 ∧
      OrderExec.execute_direct_order ⟨some 1000, some 0, []⟩ 0
          { action := "DIRECT_ORDER", side := some "BUY", size_pct := some (1/2) }
          (get_current_price j) [Except.ok (some ⟨"FILLED"⟩)] =
        Except.ok ⟨some ⟨"BUY", 1000 * (1/2) / 40000, 40000, 0⟩,
          [Event.placed "BUY" (1000 * (1/2) / 40000)], []⟩ := by
  intro j h
  have hp : get_current_price j = 40000 := by
    cases j with
    | none => rfl
    | some d =>
      cases d with
      | obj fields =>
        simp only [get_current_price, lacksPrice, objGet_eq_dictGet] at h ⊢
        cases hr : dictGet fields "real_time_data" with
        | none => simp [hr, objGet_eq_dictGet, pyFloat, dictGet]
        | some v =>
          rw [hr] at h
          cases v with
          | obj rtd =>
            simp only [Option.getD_some, objGet_eq_dictGet] at h ⊢
            cases hr2 : dictGet rtd "current_price_usd" with
            | none => simp [hr2, pyFloat]
            | some v2 =>
              rw [hr2] at h
              cases v2 <;> simp_all [pyFloat]
          | null => simp [hr]
          | boolV b => simp [hr]
          | num q => simp [hr]
          | str s => simp [hr]
          | arr xs => simp [hr]
      | null => rfl
      | boolV b => rfl
      | num q => rfl
      | str s => rfl
      | arr xs => rfl
  have hp2 : get_current_price_from_data j = get_current_price j := rfl
  refine ⟨hp, hp2.trans hp, ?_⟩
  rw [hp]
  have hB : pyUpper "BUY" = "BUY" := by decide
  simp only [OrderExec.execute_direct_order, OrderExec.resolveDirectSize,
    cleanup_conflicts, get_asset_free_balance, hB, Option.getD, if_true]
  norm_num

/-- Witness for C10 at an unparseable market-data string (`json.loads`
raised). -/
theorem c10_price_fallback_40000_witness :
    get_current_price none = 40000 ∧ get_current_price_from_data none = 40000 ∧
    OrderExec.execute_direct_order ⟨some 1000, some 0, []⟩ 0
        { action := "DIRECT_ORDER", side := some "BUY", size_pct := some (1/2) }
        (get_current_price none) [Except.ok (some ⟨"FILLED"⟩)] =
      Except.ok ⟨some ⟨"BUY", 1000 * (1/2) / 40000, 40000, 0⟩,
        [Event.placed "BUY" (1000 * (1/2) / 40000)], []⟩ :=
  c10_price_fallback_40000 none rfl

/-- The two-state loop of `run_strategy` computes the same final
state/lock pair as the plain fold. -/
theorem runRows_snd_eq_runLoop (p : AtrStop.AtrParams) :
    ∀ (rows : List AtrStop.Row) (prev cur : AtrStop.RowState × Nat),
      (AtrStop.runRows p prev cur rows).2 = AtrStop.runLoop p cur rows := by
  intro rows
  induction rows with
  | nil => intro prev cur; rfl
  | cons r rs ih =>
    intro prev cur
    simp only [AtrStop.runRows, AtrStop.runLoop, List.foldl_cons]
    exact ih cur (AtrStop.stepAtr p cur r)

/-- During a lock period, candles without gap exclusion only decrement the
lock counter: the trend and the consecutive-candle counters are unchanged. -/
theorem runLoop_locked (p : AtrStop.AtrParams) :
    ∀ (rs : List AtrStop.Row) (s : AtrStop.RowState) (lock : Nat),
      rs.length ≤ lock → (∀ r ∈ rs, AtrStop.gapExcluded p r = false) →
      (AtrStop.runLoop p (s, lock) rs).1.in_uptrend = s.in_uptrend ∧
      (AtrStop.runLoop p (s, lock) rs).1.below_count = s.below_count ∧
      (AtrStop.runLoop p (s, lock) rs).1.above_count = s.above_count ∧
      (AtrStop.runLoop p (s, lock) rs).2 = lock - rs.length := by
  intro rs
  induction rs with
  | nil => intro s lock _ _; exact ⟨rfl, rfl, rfl, by simp [AtrStop.runLoop]⟩
  | cons r rs ih =>
    intro s lock hlen hgap
    have hg : AtrStop.gapExcluded p r = false := hgap r (List.mem_cons_self r rs)
    have hpos : 0 < lock :=
      lt_of_lt_of_le (Nat.succ_pos rs.length) (by simpa using hlen)
    have hstep : AtrStop.stepAtr p (s, lock) r =
        ({ in_uptrend := s.in_uptrend, final_upper := r.basic_upper,
           final_lower := r.basic_lower, below_count := s.below_count,
           above_count := s.above_count }, lock - 1) := by
      simp [AtrStop.stepAtr, hg, hpos]
    simp only [AtrStop.runLoop, List.foldl_cons] at *
    rw [hstep]
    have hlen' : rs.length ≤ lock - 1 := by
      have := hlen
      simp only [List.length_cons] at this
      omega
    obtain ⟨h1, h2, h3, h4⟩ :=
      ih { in_uptrend := s.in_uptrend, final_upper := r.basic_upper,
           final_lower := r.basic_lower, below_count := s.below_count,
           above_count := s.above_count } (lock - 1) hlen'
        (fun r' hr' => hgap r' (List.mem_cons_of_mem _ hr'))
    refine ⟨h1, h2, h3, ?_⟩
    rw [h4]
    simp only [List.length_cons]
    omega

/-- C7: starting from a persisted up-trend with `below_count = 0` and no lock,
with `consecutive_candles = 2`, two consecutive candles that close below the
(smoothed) final lower band — neither gap-excluded nor below the ATR
threshold — leave the trend up after the first candle and flip it to
downtrend exactly on the second, resetting `below_count` and setting the
persisted `lock_counter` to `lock_candles`; the following `lock_candles`
candles (without gap exclusion) are then ignored for flip purposes: the
trend stays down while the lock counts down. -/
theorem c7_atr_flips_on_second_candle_then_locks :
    ∀ (p : AtrStop.AtrParams) (s0 : AtrStop.RowState) (r1 r2 : AtrStop.Row),
      p.consecutive_candles = 2 →
      s0.in_uptrend = true → s0.below_count = 0 →
      AtrStop.gapExcluded p r1 = false → AtrStop.gapExcluded p r2 = false →
      ¬(r1.atr < p.atr_min_threshold) → ¬(r2.atr < p.atr_min_threshold) →
      r1.close < AtrStop.smoothedLower s0 r1 →
      r2.close < AtrStop.smoothedLower (AtrStop.stepAtr p (s0, 0) r1).1 r2 →
      (AtrStop.stepAtr p (s0, 0) r1).1.in_uptrend = true ∧
      (AtrStop.stepAtr p (s0, 0) r1).2 = 0 ∧
      (AtrStop.stepAtr p (AtrStop.stepAtr p (s0, 0) r1) r2).1.in_uptrend = false ∧
      (AtrStop.stepAtr p (AtrStop.stepAtr p (s0, 0) r1) r2).1.below_count = 0 ∧
      (AtrStop.stepAtr p (AtrStop.stepAtr p (s0, 0) r1) r2).2 = p.lock_candles ∧
      ∀ rs : List AtrStop.Row, rs.length ≤ p.lock_candles →
        (∀ r ∈ rs, AtrStop.gapExcluded p r = false) →
        (AtrStop.runLoop p (AtrStop.stepAtr p (AtrStop.stepAtr p (s0, 0) r1) r2)
            rs).1.in_uptrend = false ∧
        (AtrStop.runLoop p (AtrStop.stepAtr p (AtrStop.stepAtr p (s0, 0) r1) r2)
            rs).2 = p.lock_candles - rs.length := by
  intro p s0 r1 r2 hcons hup hb0 hg1 hg2 ha1 ha2 hlt1 hlt2
  have e1 : AtrStop.stepAtr p (s0, 0) r1 =
      ({ in_uptrend := true, final_upper := r1.basic_upper,
         final_lower := AtrStop.smoothedLower s0 r1, below_count := 1,
         above_count := 0 }, 0) := by
    simp [AtrStop.stepAtr, hg1, hup, hb0, hlt1, ha1, hcons]
  rw [e1] at hlt2 ⊢
  have e2 : AtrStop.stepAtr p
      ({ in_uptrend := true, final_upper := r1.basic_upper,
         final_lower := AtrStop.smoothedLower s0 r1, below_count := 1,
         above_count := 0 }, 0) r2 =
      ({ in_uptrend := false,
         final_upper := (r1.basic_upper + r2.basic_upper) / 2,
         final_lower := AtrStop.smoothedLower
           { in_uptrend := true, final_upper := r1.basic_upper,
             final_lower := AtrStop.smoothedLower s0 r1, below_count := 1,
             above_count := 0 } r2,
         below_count := 0, above_count := 0 }, p.lock_candles) := by
    simp [AtrStop.stepAtr, hg2, hlt2, ha2, hcons]
  rw [e2]
  refine ⟨rfl, rfl, rfl, rfl, rfl, ?_⟩
  intro rs hlen hgap
  obtain ⟨h1, _, _, h4⟩ := runLoop_locked p rs _ p.lock_candles hlen hgap
  exact ⟨h1, h4⟩

/-- The first witness candle closes below the smoothed lower band
(`(100 + 96)/2 = 98`). -/
theorem atrWitnessBelowFirst :
    (90 : ℚ) < AtrStop.smoothedLower ⟨true, 110, 100, 0, 0⟩
      ⟨101, 99, 90, none, 1, 103, 96⟩ := by
  norm_num [AtrStop.smoothedLower]

/-- The second witness candle closes below the band smoothed after the first
candle (`(98 + 88)/2 = 93`). -/
theorem atrWitnessBelowSecond :
    (85 : ℚ) < AtrStop.smoothedLower
      (AtrStop.stepAtr ⟨14, 2, 2, 0, 2, 3/100, false⟩
        (⟨true, 110, 100, 0, 0⟩, 0) ⟨101, 99, 90, none, 1, 103, 96⟩).1
      ⟨91, 89, 85, none, 1, 102, 88⟩ := by
  norm_num [AtrStop.stepAtr, AtrStop.smoothedLower, AtrStop.gapExcluded]

/-- Witness for C7: default-style parameters (`consecutive_candles = 2`,
`lock_candles = 2`), an up-trend state with band 100, two below-band candles,
then two locked candles. -/
theorem c7_atr_flips_on_second_candle_then_locks_witness :
    (AtrStop.stepAtr ⟨14, 2, 2, 0, 2, 3/100, false⟩ (⟨true, 110, 100, 0, 0⟩, 0)
        ⟨101, 99, 90, none, 1, 103, 96⟩).1.in_uptrend = true ∧
    (AtrStop.stepAtr ⟨14, 2, 2, 0, 2, 3/100, false⟩ (⟨true, 110, 100, 0, 0⟩, 0)
        ⟨101, 99, 90, none, 1, 103, 96⟩).2 = 0 ∧
    (AtrStop.stepAtr ⟨14, 2, 2, 0, 2, 3/100, false⟩
        (AtrStop.stepAtr ⟨14, 2, 2, 0, 2, 3/100, false⟩ (⟨true, 110, 100, 0, 0⟩, 0)
          ⟨101, 99, 90, none, 1, 103, 96⟩)
        ⟨91, 89, 85, none, 1, 102, 88⟩).1.in_uptrend = false ∧
    (AtrStop.stepAtr ⟨14, 2, 2, 0, 2, 3/100, false⟩
        (AtrStop.stepAtr ⟨14, 2, 2, 0, 2, 3/100, false⟩ (⟨true, 110, 100, 0, 0⟩, 0)
          ⟨101, 99, 90, none, 1, 103, 96⟩)
        ⟨91, 89, 85, none, 1, 102, 88⟩).1.below_count = 0 ∧
    (AtrStop.stepAtr ⟨14, 2, 2, 0, 2, 3/100, false⟩
        (AtrStop.stepAtr ⟨14, 2, 2, 0, 2, 3/100, false⟩ (⟨true, 110, 100, 0, 0⟩, 0)
          ⟨101, 99, 90, none, 1, 103, 96⟩)
        ⟨91, 89, 85, none, 1, 102, 88⟩).2 = 2 ∧
    (AtrStop.runLoop ⟨14, 2, 2, 0, 2, 3/100, false⟩
        (AtrStop.stepAtr ⟨14, 2, 2, 0, 2, 3/100, false⟩
          (AtrStop.stepAtr ⟨14, 2, 2, 0, 2, 3/100, false⟩ (⟨true, 110, 100, 0, 0⟩, 0)
            ⟨101, 99, 90, none, 1, 103, 96⟩)
          ⟨91, 89, 85, none, 1, 102, 88⟩)
        [⟨86, 84, 85, none, 1, 100, 80⟩,
         ⟨85, 83, 84, none, 1, 100, 80⟩]).1.in_uptrend = false ∧
    (AtrStop.runLoop ⟨14, 2, 2, 0, 2, 3/100, false⟩
        (AtrStop.stepAtr ⟨14, 2, 2, 0, 2, 3/100, false⟩
          (AtrStop.stepAtr ⟨14, 2, 2, 0, 2, 3/100, false⟩ (⟨true, 110, 100, 0, 0⟩, 0)
            ⟨101, 99, 90, none, 1, 103, 96⟩)
          ⟨91, 89, 85, none, 1, 102, 88⟩)
        [⟨86, 84, 85, none, 1, 100, 80⟩,
         ⟨85, 83, 84, none, 1, 100, 80⟩]).2 = 0 := by
  have h := c7_atr_flips_on_second_candle_then_locks
    ⟨14, 2, 2, 0, 2, 3/100, false⟩ ⟨true, 110, 100, 0, 0⟩
    ⟨101, 99, 90, none, 1, 103, 96⟩ ⟨91, 89, 85, none, 1, 102, 88⟩
    rfl rfl rfl rfl rfl (not_lt.2 zero_le_one) (not_lt.2 zero_le_one)
    atrWitnessBelowFirst atrWitnessBelowSecond
  obtain ⟨w1, w2⟩ := h.2.2.2.2.2
    [⟨86, 84, 85, none, 1, 100, 80⟩, ⟨85, 83, 84, none, 1, 100, 80⟩]
    (by decide) (by decide)
  exact ⟨h.1, h.2.1, h.2.2.1, h.2.2.2.1, h.2.2.2.2.1, w1, w2⟩

/-- C6 counterexample: for the atr_stop strategy the state write is NOT
temp-file-then-rename — `save_state` truncates the state file in place, so a
crash mid-write leaves a partial file, and the subsequent `load_state`
returns the documented DEFAULT state, which is neither the prior committed
value (here `lock_counter = 1`, `below_count = 3`, downtrend) nor the value
being written (here `lock_counter = 2`). -/
theorem c6_atr_save_not_atomic_counterexample :
    StateStore.FileContent.halfWritten ∈
      StateStore.atrSaveCrashPoints (.committed ⟨false, none, none, 3, 0, 1⟩)
        ⟨true, none, none, 0, 0, 2⟩ ∧
    StateStore.atrLoadState .halfWritten ≠ ⟨false, none, none, 3, 0, 1⟩ ∧
    StateStore.atrLoadState .halfWritten ≠ ⟨true, none, none, 0, 0, 2⟩ := by
  refine ⟨by simp [StateStore.atrSaveCrashPoints], ?_, ?_⟩ <;>
    simp [StateStore.atrLoadState, StateStore.defaultAtrState]

/-- C6 (amended): a completed state write re-reads to the written value for
both strategies, and for ma_crossover — whose `save_state` does write
temp-file-then-atomic-rename — every crash point during a write leaves
either the prior file content or the fully committed new record; atr_stop's
in-place write lacks this crash guarantee (see the counterexample). -/
theorem c6_round_trip_and_ma_atomicity :
    ∀ (s : StateStore.AtrStateRec) (t : StateStore.MaStateRec)
      (prior : StateStore.FileContent StateStore.MaStateRec),
      StateStore.atrLoadState (.committed s) = s ∧
      StateStore.maLoadState (.committed t) = t ∧
      ∀ c ∈ StateStore.maSaveCrashPoints prior t, c = prior ∨ c = .committed t := by
  intro s t prior
  refine ⟨rfl, rfl, ?_⟩
  intro c hc
  simp only [StateStore.maSaveCrashPoints, List.mem_cons, List.mem_singleton,
    List.not_mem_nil, or_false] at hc
  rcases hc with h | h | h
  · exact Or.inl h
  · exact Or.inl h
  · exact Or.inr h

/-- Witness for C6 (amended) at the default atr state, an ma state recording
a BUY signal, and an absent prior file. -/
theorem c6_round_trip_and_ma_atomicity_witness :
    StateStore.atrLoadState (.committed StateStore.defaultAtrState) =
        StateStore.defaultAtrState ∧
    StateStore.maLoadState (.committed ⟨"BUY"⟩) = (⟨"BUY"⟩ : StateStore.MaStateRec) ∧
    (StateStore.FileContent.committed (⟨"BUY"⟩ : StateStore.MaStateRec) = .absent ∨
      StateStore.FileContent.committed (⟨"BUY"⟩ : StateStore.MaStateRec) =
        .committed ⟨"BUY"⟩) :=
  have h := c6_round_trip_and_ma_atomicity StateStore.defaultAtrState ⟨"BUY"⟩ .absent
  ⟨h.1, h.2.1, h.2.2 (.committed ⟨"BUY"⟩) (by simp [StateStore.maSaveCrashPoints])⟩

/-- C8: `update_strategies` DEADLOCKS whenever there is a strategy to stop:
it calls `stop_strategy` — which acquires the manager lock — while already
holding that non-reentrant lock, so the call never terminates (no terminating
execution exists, `none`).  `stop_strategy` on its own works, and a call with
nothing to stop completes leaving running identities untouched, isolating
the deadlock to the nested acquisition. -/
theorem c8_update_strategies_deadlocks :
    update_strategies ⟨["rsi|period-14"], false⟩ [] = none ∧
    stop_strategy ⟨["rsi|period-14"], false⟩ "rsi|period-14" = some ⟨[], false⟩ ∧
    update_strategies ⟨["rsi|period-14"], false⟩ ["rsi|period-14"] =
      some ⟨["rsi|period-14"], false⟩ := by
  decide

/-- C3 counterexample: with the actual retry policy of
`binance_api.place_order` (`stop_after_attempt(2)`), a venue that raises a
transient error on the first two attempts and would succeed on the third
makes `place_order` reraise after TWO attempts: the third attempt is never
performed, the call yields an error rather than the successful response. -/
theorem c3_third_attempt_counterexample :
    Binance.place_order [.transientErr, .transientErr, .ok ⟨"FILLED"⟩] =
        Except.error () ∧
    Binance.attemptsUsed Binance.place_order_attempt_cap
        [.transientErr, .transientErr, .ok ⟨"FILLED"⟩] = 2 :=
  ⟨rfl, rfl⟩

/-- C3 (amended): the bounded retry cap of `place_order` is TWO attempts: a
transient error followed by a success is retried within the cap and returns
the successful response — after which the processing path records the new
Position, so the Position Store reflects the eventual success — while two
consecutive transient errors exhaust the cap and the error propagates. -/
theorem c3_retry_cap_is_two :
    ∀ (r : Resp) (rest : List Binance.AttemptOutcome),
      Binance.place_order (.transientErr :: .ok r :: rest) = Except.ok (some r) ∧
      Binance.place_order [.transientErr, .transientErr] = Except.error () ∧
      (TraderExec.process_multiple_decisions ⟨some 1000, some 1, []⟩ 0
          [{ action := "DIRECT_ORDER", side := some "BUY", size := some (1/100) }]
          none none none
          [Binance.place_order (.transientErr :: .ok r :: rest)] []).store =
        some ⟨"BUY", 1/100, 40000, 0⟩ := by
  intro r rest
  refine ⟨rfl, rfl, ?_⟩
  have hB : pyUpper "BUY" = "BUY" := by decide
  have h1 : Binance.place_order (.transientErr :: .ok r :: rest) = Except.ok (some r) := rfl
  rw [h1]
  simp only [TraderExec.process_multiple_decisions, TraderExec.processFrom,
    cleanup_conflicts, get_current_price_from_data, hB, Option.isSome_some]
  simp [hB]

end Bot
